import Mathlib

/-!
Verification of the `deserialize` crate: the resilient batch-decode pipeline
(`FromCsv::from_bytes`, `from_csv`, `from_csv_reader`, `FromXlsx::from_xlsx`)
and the field-coercion codec set (`src/lib.rs`, `src/excel.rs`).

Modelling conventions:
* Rust `f64` cell values are modelled as exact rationals (`ℚ`); the claims
  under scrutiny only use values (`0.0`, `0.5`, ...) on which `trunc`, `fract`,
  `* 86400.0` and `round` are exact, so the rational model agrees with the
  float code there.
* `serde` string deserialization is modelled by passing the raw cell text
  directly to each codec.
* Diagnostics (`eprintln!` on a failed row) are modelled as an extra output
  list carrying the row index and the error; error payloads produced with
  `format!` keep only their static message part.
* `chrono`'s `NaiveDate` is modelled as a proleptic-Gregorian civil triple;
  `from_num_days_from_ce` is the standard day-number/civil conversion
  (day 1 = 0001-01-01).
-/

/-- Model of Rust `f64::trunc` (rounds toward zero) on the rational model. -/
def ratTrunc (q : ℚ) : Int := if 0 ≤ q then ⌊q⌋ else ⌈q⌉

/-- Model of Rust `f64::round` (rounds half away from zero). -/
def ratRound (q : ℚ) : Int := if 0 ≤ q then ⌊q + 1/2⌋ else ⌈q - 1/2⌉

/-- Decidable equality of decode results. -/
instance {ε α : Type} [DecidableEq ε] [DecidableEq α] : DecidableEq (Except ε α) := fun a b =>
  match a, b with
  | .ok x, .ok y =>
    if h : x = y then isTrue (by rw [h]) else isFalse (by intro hh; cases hh; exact h rfl)
  | .error x, .error y =>
    if h : x = y then isTrue (by rw [h]) else isFalse (by intro hh; cases hh; exact h rfl)
  | .ok _, .error _ => isFalse (by intro hh; cases hh)
  | .error _, .ok _ => isFalse (by intro hh; cases hh)

/-- Proleptic-Gregorian civil date, the model of `chrono::NaiveDate`. -/
structure NaiveDate where
  year : Int
  month : Int
  day : Int
deriving DecidableEq

/-- Model of `chrono::NaiveTime` as whole seconds from midnight. -/
structure NaiveTime where
  secondsFromMidnight : Nat
deriving DecidableEq

/-- Model of `chrono::NaiveDateTime`. -/
structure NaiveDateTime where
  date : NaiveDate
  time : NaiveTime
deriving DecidableEq

/-- Day-number to civil conversion (days counted from 1970-01-01),
the standard proleptic-Gregorian algorithm. -/
def civilFromDays (z0 : Int) : Int × Int × Int :=
  let z := z0 + 719468
  let era := Int.fdiv z 146097
  let doe := z - era * 146097
  let yoe := Int.fdiv (doe - Int.fdiv doe 1460 + Int.fdiv doe 36524 - Int.fdiv doe 146096) 365
  let y := yoe + era * 400
  let doy := doe - (365 * yoe + Int.fdiv yoe 4 - Int.fdiv yoe 100)
  let mp := Int.fdiv (5 * doy + 2) 153
  let d := doy - Int.fdiv (153 * mp + 2) 5 + 1
  let m := mp + (if mp < 10 then 3 else -9)
  (y + (if m ≤ 2 then 1 else 0), m, d)

/-- Model of `chrono::NaiveDate::from_num_days_from_ce`
(day 1 is 0001-01-01, so 1970-01-01 is day 719163). -/
def NaiveDate.fromNumDaysFromCE (n : Int) : NaiveDate :=
  let c := civilFromDays (n - 719163)
  ⟨c.1, c.2.1, c.2.2⟩

/-- Model of `calamine::DataType`, the raw spreadsheet cell. -/
inductive DataType where
  | int : Int → DataType
  | float : ℚ → DataType
  | str : String → DataType
  | bool : Bool → DataType
  | dateTime : ℚ → DataType
  | cellError : String → DataType
  | empty : DataType
deriving DecidableEq

/-- Source constant (`src/excel.rs`): Excel erroneously treats 1900 as a leap
year, so the serial-number offset to CE day numbers is 693594. -/
def NUM_DAYS_1900_01_01_FROM_CE : Int := 693594

/-- Model of `excel_date::deserialize` (`src/excel.rs`). -/
def excel_date.deserialize (cell : DataType) : Except String NaiveDate :=
  match cell with
  | .float f | .dateTime f =>
    let days := ratTrunc f
    .ok (NaiveDate.fromNumDaysFromCE (days + NUM_DAYS_1900_01_01_FROM_CE))
  | _ => .error "invalid date"

/-- Model of `excel_datetime::deserialize` (`src/excel.rs`): integer part is
the day serial, fractional part is converted to seconds (`* 24 * 60 * 60`,
then `round`, then `as u32` which saturates at zero from below). -/
def excel_datetime.deserialize (cell : DataType) : Except String NaiveDateTime :=
  match cell with
  | .float f | .dateTime f =>
    let days := ratTrunc f
    let time := (f - ratTrunc f) * 24 * 60 * 60
    let secs := (ratRound time).toNat
    .ok ⟨NaiveDate.fromNumDaysFromCE (days + NUM_DAYS_1900_01_01_FROM_CE), ⟨secs⟩⟩
  | _ => .error "invalid datetime"

/-- Drop leading whitespace, the model of chrono's `trim_left` step that
precedes numeric items and implements literal-space format items. -/
def skipWs (cs : List Char) : List Char := cs.dropWhile Char.isWhitespace

/-- Greedy digit scan consuming at most `fuel` further digits, returning the
accumulated value, the digit count so far, and the rest of the input. -/
def scanDigits : Nat → List Char → Nat → Nat → Nat × Nat × List Char
  | 0, cs, acc, cnt => (acc, cnt, cs)
  | _ + 1, [], acc, cnt => (acc, cnt, [])
  | fuel + 1, c :: rest, acc, cnt =>
    if c.isDigit then scanDigits fuel rest (acc * 10 + (c.toNat - 48)) (cnt + 1)
    else (acc, cnt, c :: rest)

/-- Model of chrono's `scan::number(s, min, max)`: between `min` and `max`
leading digits, taken greedily. -/
def scanNumber (minDigits maxDigits : Nat) (cs : List Char) : Option (Nat × List Char) :=
  let r := scanDigits maxDigits cs 0 0
  if minDigits ≤ r.2.1 then some (r.1, r.2.2) else none

/-- Model of a chrono numeric format item: leading whitespace is skipped,
then 1 to `maxDigits` digits are read. -/
def numItem (maxDigits : Nat) (cs : List Char) : Option (Nat × List Char) :=
  scanNumber 1 maxDigits (skipWs cs)

/-- Model of a literal character in a chrono format string. -/
def litItem (c : Char) (cs : List Char) : Option (List Char) :=
  match cs with
  | d :: rest => if d = c then some rest else none
  | [] => none

/-- Model of chrono's `%p` item: `AM`/`PM`, case-insensitively; `true` = PM. -/
def amPmItem (cs : List Char) : Option (Bool × List Char) :=
  match cs with
  | a :: b :: rest =>
    if (a = 'A' ∨ a = 'a') ∧ (b = 'M' ∨ b = 'm') then some (false, rest)
    else if (a = 'P' ∨ a = 'p') ∧ (b = 'M' ∨ b = 'm') then some (true, rest)
    else none
  | _ => none

/-- Number of days in a month of the proleptic-Gregorian calendar. -/
def daysInMonth (y m : Nat) : Nat :=
  if m = 2 then
    if y % 4 = 0 ∧ (y % 100 ≠ 0 ∨ y % 400 = 0) then 29 else 28
  else if m = 4 ∨ m = 6 ∨ m = 9 ∨ m = 11 then 30
  else 31

/-- Model of `Parsed::to_naive_date`: the collected year/month/day fields
must form a valid civil date. -/
def mkNaiveDate (y m d : Nat) : Option NaiveDate :=
  if 1 ≤ m ∧ m ≤ 12 ∧ 1 ≤ d ∧ d ≤ daysInMonth y m then
    some ⟨(y : Int), (m : Int), (d : Int)⟩
  else none

/-- Model of `Parsed::to_naive_time` for 24-hour fields: the hour was already
range-checked when set (`set_hour`), minute and second are checked here. -/
def mkNaiveTime (h mi se : Nat) : Option NaiveTime :=
  if mi ≤ 59 ∧ se ≤ 59 then some ⟨h * 3600 + mi * 60 + se⟩ else none

/-- Parse `%m/%d/%Y` (month and day 1-2 digits, year 1-4 digits), returning
the raw fields and the remaining input. -/
def parseMDY (cs : List Char) : Option ((Nat × Nat × Nat) × List Char) :=
  (numItem 2 cs).bind fun mo =>
    (litItem '/' mo.2).bind fun cs1 =>
      (numItem 2 cs1).bind fun da =>
        (litItem '/' da.2).bind fun cs2 =>
          (numItem 4 cs2).map fun yr => ((mo.1, da.1, yr.1), yr.2)

/-- Parse `%H`, model of chrono `set_hour` which rejects values above 23. -/
def parseHour24 (cs : List Char) : Option (Nat × List Char) :=
  (numItem 2 cs).bind fun h => if h.1 ≤ 23 then some h else none

/-- Parse the trailing ` %H:%M:%S` of the `"%m/%d/%Y %H:%M:%S"` format. -/
def parseHMS (cs : List Char) : Option ((Nat × Nat × Nat) × List Char) :=
  (parseHour24 (skipWs cs)).bind fun h =>
    (litItem ':' h.2).bind fun cs1 =>
      (numItem 2 cs1).bind fun mi =>
        (litItem ':' mi.2).bind fun cs2 =>
          (numItem 2 cs2).map fun se => ((h.1, mi.1, se.1), se.2)

/-- Parse the trailing ` %H:%M` of the `"%m/%d/%Y %H:%M"` format. -/
def parseHM (cs : List Char) : Option ((Nat × Nat) × List Char) :=
  (parseHour24 (skipWs cs)).bind fun h =>
    (litItem ':' h.2).bind fun cs1 =>
      (numItem 2 cs1).map fun mi => ((h.1, mi.1), mi.2)

/-- `NaiveDate::parse_from_str` with format `"%m/%d/%Y %H:%M:%S"`: the time
fields must be present (and the hour in range) but only the date is resolved. -/
def parseDateMDYHMS (cs : List Char) : Option NaiveDate :=
  (parseMDY cs).bind fun d =>
    (parseHMS d.2).bind fun t =>
      if t.2 = [] then mkNaiveDate d.1.2.2 d.1.1 d.1.2.1 else none

/-- `NaiveDate::parse_from_str` with format `"%m/%d/%Y %H:%M"`. -/
def parseDateMDYHM (cs : List Char) : Option NaiveDate :=
  (parseMDY cs).bind fun d =>
    (parseHM d.2).bind fun t =>
      if t.2 = [] then mkNaiveDate d.1.2.2 d.1.1 d.1.2.1 else none

/-- `NaiveDateTime::parse_from_str` with format `"%m/%d/%Y %H:%M:%S"`. -/
def parseDateTimeMDYHMS (cs : List Char) : Option NaiveDateTime :=
  (parseMDY cs).bind fun d =>
    (parseHMS d.2).bind fun t =>
      if t.2 = [] then
        (mkNaiveDate d.1.2.2 d.1.1 d.1.2.1).bind fun date =>
          (mkNaiveTime t.1.1 t.1.2.1 t.1.2.2).map fun time => ⟨date, time⟩
      else none

/-- `NaiveDateTime::parse_from_str` with format `"%m/%d/%Y %H:%M"`
(the missing seconds default to 0). -/
def parseDateTimeMDYHM (cs : List Char) : Option NaiveDateTime :=
  (parseMDY cs).bind fun d =>
    (parseHM d.2).bind fun t =>
      if t.2 = [] then
        (mkNaiveDate d.1.2.2 d.1.1 d.1.2.1).bind fun date =>
          (mkNaiveTime t.1.1 t.1.2 0).map fun time => ⟨date, time⟩
      else none

/-- Unicode-whitespace trim that models Rust `str::trim` on ASCII input. -/
def trimChars (cs : List Char) : List Char :=
  ((cs.dropWhile Char.isWhitespace).reverse.dropWhile Char.isWhitespace).reverse

/-- Model of `mm_dd_yyyy_date::deserialize` (`src/lib.rs`): trim, then try
`FORMAT = "%m/%d/%Y %H:%M:%S"`, `ALT_FORMAT = "%m/%d/%Y %H:%M:%S"` (an exact
duplicate of `FORMAT`) and `OTHER_ALT_FORMAT = "%m/%d/%Y %H:%M"` in that
order, keeping only the date. The `format!`-built error payload is elided. -/
def mm_dd_yyyy_date.deserialize (s : String) : Except String NaiveDate :=
  let t := trimChars s.data
  match ((parseDateMDYHMS t).orElse fun _ => parseDateMDYHMS t).orElse
      fun _ => parseDateMDYHM t with
  | some d => .ok d
  | none => .error "invalid date"

/-- Model of `mm_dd_yyyy_datetime::deserialize` (`src/lib.rs`): same three
format strings tried in order, resolved to a full datetime. -/
def mm_dd_yyyy_datetime.deserialize (s : String) : Except String NaiveDateTime :=
  let t := trimChars s.data
  match ((parseDateTimeMDYHMS t).orElse fun _ => parseDateTimeMDYHMS t).orElse
      fun _ => parseDateTimeMDYHM t with
  | some d => .ok d
  | none => .error "invalid datetime"

/-- `NaiveTime::parse_from_str` with chrono's `%r`, that is
`%I:%M:%S %p`: 12-hour clock with AM/PM marker. -/
def parseTime12 (cs : List Char) : Option NaiveTime :=
  (numItem 2 cs).bind fun h =>
    if 1 ≤ h.1 ∧ h.1 ≤ 12 then
      (litItem ':' h.2).bind fun cs1 =>
        (numItem 2 cs1).bind fun mi =>
          (litItem ':' mi.2).bind fun cs2 =>
            (numItem 2 cs2).bind fun se =>
              (amPmItem (skipWs se.2)).bind fun ap =>
                if ap.2 = [] then
                  (mkNaiveTime (h.1 % 12 + (if ap.1 then 12 else 0)) mi.1 se.1)
                else none
    else none

/-- Model of `excel_time::deserialize` (`src/excel.rs`): text cells are parsed
with `%r`; numeric (`Float`) cells use the day-fraction; every other cell
variant — including `DateTime` — falls to the catch-all error (whose message
says `invalid datetime`, as in the source). -/
def excel_time.deserialize (cell : DataType) : Except String NaiveTime :=
  match cell with
  | .str s =>
    match parseTime12 s.data with
    | some t => .ok t
    | none => .error "invalid time"
  | .float f =>
    let time := (f - ratTrunc f) * 24 * 60 * 60
    let secs := (ratRound time).toNat
    .ok ⟨secs⟩
  | _ => .error "invalid datetime"

/-- Model of `excel_time_opt::deserialize` (`src/excel.rs`): as `excel_time`
but an empty text cell or an `Empty` cell yields absence. -/
def excel_time_opt.deserialize (cell : DataType) : Except String (Option NaiveTime) :=
  match cell with
  | .str s =>
    if s = "" then .ok none
    else
      match parseTime12 s.data with
      | some t => .ok (some t)
      | none => .error "invalid time"
  | .float f =>
    let time := (f - ratTrunc f) * 24 * 60 * 60
    let secs := (ratRound time).toNat
    .ok (some ⟨secs⟩)
  | .empty => .ok none
  | _ => .error "invalid datetime"

/-- Model of `zero_one_bool::deserialize` (`src/lib.rs`). -/
def zero_one_bool.deserialize (s : String) : Except String Bool :=
  if s = "1" ∨ s = "true" then .ok true
  else if s = "0" ∨ s = "false" then .ok false
  else .error "Not one or zero"

/-- Model of `zero_one_bool::serialize`. -/
def zero_one_bool.serialize (v : Bool) : String :=
  match v with
  | true => "1"
  | false => "0"

/-- Model of `yes_no_bool::deserialize`. -/
def yes_no_bool.deserialize (s : String) : Except String Bool :=
  if s = "Yes" then .ok true
  else if s = "No" then .ok false
  else .error "Not yes or no"

/-- Model of `yes_no_bool::serialize`. -/
def yes_no_bool.serialize (v : Bool) : String :=
  match v with
  | true => "Yes"
  | false => "No"

/-- Model of `nullable_yes_no_bool::deserialize`: note the catch-all arm is
an error, not absence. -/
def nullable_yes_no_bool.deserialize (s : String) : Except String (Option Bool) :=
  if s = "Yes" then .ok (some true)
  else if s = "No" then .ok (some false)
  else if s = "" ∨ s = "NA" then .ok none
  else .error "Not yes or no"

/-- Model of `nullable_yes_no_bool::serialize`. -/
def nullable_yes_no_bool.serialize (v : Option Bool) : String :=
  match v with
  | some true => "Yes"
  | some false => "No"
  | none => ""

/-- Model of `true_false_bool::deserialize`. -/
def true_false_bool.deserialize (s : String) : Except String Bool :=
  if s = "True" ∨ s = "true" then .ok true
  else if s = "False" ∨ s = "false" then .ok false
  else .error "Not true or false"

/-- Model of `true_false_bool::serialize`. -/
def true_false_bool.serialize (v : Bool) : String :=
  match v with
  | true => "True"
  | false => "False"

/-- Model of `nullable_true_false_bool::deserialize`: again the catch-all arm
is an error, not absence. -/
def nullable_true_false_bool.deserialize (s : String) : Except String (Option Bool) :=
  if s = "1" ∨ s = "true" ∨ s = "True" then .ok (some true)
  else if s = "0" ∨ s = "false" ∨ s = "False" then .ok (some false)
  else if s = "" ∨ s = "NA" then .ok none
  else .error "Not true or false or empty/NA"

/-- Model of `nullable_true_false_bool::serialize`. -/
def nullable_true_false_bool.serialize (v : Option Bool) : String :=
  match v with
  | some true => "True"
  | some false => "False"
  | none => ""

/-- Model of `non_null_bool::deserialize`: never errors. -/
def non_null_bool.deserialize (s : String) : Except String Bool :=
  if s = "" ∨ s = "NULL" ∨ s = "0" then .ok false else .ok true

/-- Model of `non_null_bool::serialize`. -/
def non_null_bool.serialize (v : Bool) : String :=
  match v with
  | true => "1"
  | false => "0"

/-- Model of `nullable_bool::deserialize`: every unrecognized token becomes
absence; this codec never errors. -/
def nullable_bool.deserialize (s : String) : Except String (Option Bool) :=
  if s = "1" ∨ s = "true" then .ok (some true)
  else if s = "0" ∨ s = "false" then .ok (some false)
  else .ok none

/-- Model of `nullable_bool::serialize`. -/
def nullable_bool.serialize (v : Option Bool) : String :=
  match v with
  | some true => "1"
  | some false => "0"
  | none => ""

/-- Fold a digit list into its numeric value. -/
def digitsToNat (ds : List Char) : Nat :=
  ds.foldl (fun a c => a * 10 + (c.toNat - 48)) 0

/-- Model of `str::parse::<i32>` as used by serde's `i32` deserialization of a
CSV text cell: optional sign, then only digits, with the `i32` range check. -/
def parseI32 (s : String) : Option Int :=
  let p : Bool × List Char :=
    match s.data with
    | '-' :: r => (true, r)
    | '+' :: r => (false, r)
    | cs => (false, cs)
  if p.2 ≠ [] ∧ p.2.all Char.isDigit then
    let v : Int := digitsToNat p.2
    if p.1 then if -v ≥ -2147483648 then some (-v) else none
    else if v ≤ 2147483647 then some v else none
  else none

/-- Model of `nullable_int_bool::deserialize`: the cell text is read as an
`i32`, any failure (including the empty string) is swallowed into absence. -/
def nullable_int_bool.deserialize (s : String) : Except String (Option Bool) :=
  match parseI32 s with
  | some 1 => .ok (some true)
  | some 0 => .ok (some false)
  | some _ => .ok none
  | none => .ok none

/-- Model of `nullable_int_bool::serialize`. -/
def nullable_int_bool.serialize (v : Option Bool) : String :=
  match v with
  | some true => "1"
  | some false => "0"
  | none => ""

/-- Single-character split, the model of Rust `str::split` with a one-char
pattern: always returns at least one (possibly empty) piece. -/
def splitOnChar (sep : Char) : List Char → List (List Char)
  | [] => [[]]
  | c :: rest =>
    let r := splitOnChar sep rest
    if c = sep then [] :: r
    else
      match r with
      | h :: t => (c :: h) :: t
      | [] => [[c]]

/-- Model of `semi_separated_list::deserialize` (`src/lib.rs`). -/
def semi_separated_list.deserialize (s : String) : Except String (List String) :=
  .ok ((splitOnChar ';' s.data).map fun cs => String.mk cs)

/-- Model of `comma_separated::deserialize` (`src/lib.rs`): split on commas,
trimming every piece. -/
def comma_separated.deserialize (s : String) : Except String (List String) :=
  .ok ((splitOnChar ',' s.data).map fun cs => String.mk (trimChars cs))

/-- Strip one trailing carriage return, as Rust `str::lines` does per line. -/
def stripTrailingCR (cs : List Char) : List Char :=
  match cs.getLast? with
  | some c => if c = '\r' then cs.dropLast else cs
  | none => cs

/-- Model of Rust `str::lines`: split on newline, drop a final empty piece
(so the empty string yields no lines at all), strip a trailing `\r` per line. -/
def rustLines (cs : List Char) : List (List Char) :=
  let ps := splitOnChar '\n' cs
  let ps2 :=
    match ps.getLast? with
    | some [] => ps.dropLast
    | _ => ps
  ps2.map stripTrailingCR

/-- Model of `line_separated::deserialize` (`src/lib.rs`). -/
def line_separated.deserialize (s : String) : Except String (List String) :=
  .ok ((rustLines s.data).map fun cs => String.mk cs)

/-- Model of Rust `str::parse::<f64>` restricted to plain decimal literals
(optional sign, integer digits, optional fraction); the exponent and
infinity/NaN forms the claims never exercise are omitted. The result is the
exact rational value of the literal. -/
def parseDecimal (cs : List Char) : Option ℚ :=
  let p : Bool × List Char :=
    match cs with
    | '-' :: r => (true, r)
    | '+' :: r => (false, r)
    | l => (false, l)
  let intDs := p.2.takeWhile Char.isDigit
  let rest := p.2.dropWhile Char.isDigit
  let val : Option ℚ :=
    match rest with
    | [] => if intDs = [] then none else some ((digitsToNat intDs : ℚ))
    | '.' :: fr =>
      let frDs := fr.takeWhile Char.isDigit
      let rest2 := fr.dropWhile Char.isDigit
      if rest2 = [] ∧ (intDs ≠ [] ∨ frDs ≠ []) then
        some ((digitsToNat intDs : ℚ) + (digitsToNat frDs : ℚ) / ((10 : ℚ) ^ frDs.length))
      else none
    | _ => none
  val.map fun q => if p.1 then -q else q

/-- Model of `currency::deserialize` (`src/lib.rs`): trim, delete every `$`
and `,`, then parse as a float. -/
def currency.deserialize (s : String) : Except String ℚ :=
  let t := (trimChars s.data).filter fun c => ¬(c = '$' ∨ c = ',')
  match parseDecimal t with
  | some q => .ok q
  | none => .error "invalid float literal"

/-- Model of `currency_opt::deserialize` (`src/lib.rs`): the emptiness test
happens before any trimming; otherwise as `currency`, propagating errors. -/
def currency_opt.deserialize (s : String) : Except String (Option ℚ) :=
  if s = "" then .ok none
  else
    let t := (trimChars s.data).filter fun c => ¬(c = '$' ∨ c = ',')
    match parseDecimal t with
    | some q => .ok (some q)
    | none => .error "invalid float literal"

section Pipeline

variable {BR SR BH SH Rec E : Type}

/-- Outcome of one row of `FromCsv::from_bytes`: the item from
`byte_records()` is either an iterator-level error (dropped silently by
`filter_map`, no diagnostic) or a byte record, which is strictly decoded
against the byte headers and, on failure, lossily re-decoded against the
lossy string headers. The second component is the diagnostic `eprintln!`
emits at the moment the strict decode fails. -/
def byteRowOutcome (strictDec : BR → Option BH → Except E Rec)
    (lossify : BR → SR) (lossyDec : SR → Option SH → Except E Rec)
    (bh : Option BH) (sh : Option SH) (item : Except E BR) : Option Rec × Option E :=
  match item with
  | .error _ => (none, none)
  | .ok br =>
    match strictDec br bh with
    | .ok r => (some r, none)
    | .error e =>
      match lossyDec (lossify br) sh with
      | .ok r => (some r, some e)
      | .error _ => (none, some e)

/-- The stream of diagnostics emitted while `from_bytes` walks its rows,
tagged with the row index the failure refers to. -/
def byteDiagsFrom (strictDec : BR → Option BH → Except E Rec)
    (lossify : BR → SR) (lossyDec : SR → Option SH → Except E Rec)
    (bh : Option BH) (sh : Option SH) : Nat → List (Except E BR) → List (Nat × E)
  | _, [] => []
  | i, item :: rest =>
    match (byteRowOutcome strictDec lossify lossyDec bh sh item).2 with
    | some e => (i, e) :: byteDiagsFrom strictDec lossify lossyDec bh sh (i + 1) rest
    | none => byteDiagsFrom strictDec lossify lossyDec bh sh (i + 1) rest

/-- Model of `FromCsv::from_bytes` (`src/lib.rs`): the header read result is
swallowed with `.ok()`, the lossy string headers are derived from the byte
headers when that conversion succeeds, and the whole call wraps a
`filter_map` over the row iterator in `Ok` — it can never return `Err`. -/
def from_bytes (strictDec : BR → Option BH → Except E Rec)
    (toStringHeader : BH → Option SH)
    (lossify : BR → SR) (lossyDec : SR → Option SH → Except E Rec)
    (headerRes : Except E BH) (items : List (Except E BR)) :
    Except E (List Rec × List (Nat × E)) :=
  let bh := headerRes.toOption
  let sh := bh.bind toStringHeader
  .ok (items.filterMap (fun it => (byteRowOutcome strictDec lossify lossyDec bh sh it).1),
       byteDiagsFrom strictDec lossify lossyDec bh sh 0 items)

/-- Collect the `Ok` results of a deserialize iterator, logging each `Err`
with its row index — the `filter_map`/`eprintln!` loop shared by
`from_csv_reader`, `from_csv`, `from_tsv_reader` and `from_xlsx`. -/
def collectLogged : Nat → List (Except E Rec) → List Rec × List (Nat × E)
  | _, [] => ([], [])
  | i, .ok r :: rest =>
    let p := collectLogged (i + 1) rest
    (r :: p.1, p.2)
  | i, .error e :: rest =>
    let p := collectLogged (i + 1) rest
    (p.1, (i, e) :: p.2)

/-- Model of `FromCsv::from_csv_reader` (`src/lib.rs`): per-row skip-and-log
over an already-open reader, always returning `Ok`. -/
def from_csv_reader (items : List (Except E Rec)) :
    Except E (List Rec × List (Nat × E)) :=
  .ok (collectLogged 0 items)

/-- Model of `FromCsv::from_csv` (`src/lib.rs`): `Reader::from_path(path)?`
may fail — that is the only fatal exit — after which rows are skipped and
logged exactly as in `from_csv_reader`. -/
def from_csv (openRes : Except E (List (Except E Rec))) :
    Except E (List Rec × List (Nat × E)) :=
  match openRes with
  | .error e => .error e
  | .ok items => .ok (collectLogged 0 items)

/-- Model of `FromXlsx::from_xlsx` (`src/excel.rs`): `worksheet_range_at(0)`
returning `None` is fatal (`Msg "sheet not found"`), a failed range lookup is
fatal, a failed `range.deserialize()` (unreadable header row) is fatal, and
after that rows are skipped and logged. -/
def from_xlsx {Rg : Type} (sheet : Option (Except String Rg))
    (deserializeRange : Rg → Except String (List (Except String Rec))) :
    Except String (List Rec × List (Nat × String)) :=
  match sheet with
  | none => .error "sheet not found"
  | some (.error e) => .error e
  | some (.ok rg) =>
    match deserializeRange rg with
    | .error e => .error e
    | .ok items => .ok (collectLogged 0 items)

end Pipeline

/-- C4: the spreadsheet date/datetime codecs decode a numeric cell by taking
its integer part as a day count offset by the constant 693594 from the
proleptic day-number origin — so numeric `0.0` decodes to the epoch date
fixed by that constant, 1899-12-30 — and convert the fractional part to
time-of-day as a fraction of 86400 seconds rounded to the nearest whole
second, so fractional part `0.5` decodes to 12:00:00. -/
theorem C4_excel_numeric_epoch_and_day_fraction :
    (∀ q : ℚ, excel_date.deserialize (.float q) =
      .ok (NaiveDate.fromNumDaysFromCE (ratTrunc q + NUM_DAYS_1900_01_01_FROM_CE)))
    ∧ excel_date.deserialize (.float 0) = .ok ⟨1899, 12, 30⟩
    ∧ (∀ q : ℚ, excel_datetime.deserialize (.float q) =
      .ok ⟨NaiveDate.fromNumDaysFromCE (ratTrunc q + NUM_DAYS_1900_01_01_FROM_CE),
        ⟨(ratRound ((q - ratTrunc q) * 24 * 60 * 60)).toNat⟩⟩)
    ∧ excel_datetime.deserialize (.float (1/2)) = .ok ⟨⟨1899, 12, 30⟩, ⟨12 * 3600⟩⟩ := by
  refine ⟨fun q => rfl, by decide, fun q => rfl, ?_⟩
  have h1 : ratTrunc ((1 : ℚ)/2) = 0 := by unfold ratTrunc; norm_num
  have h2 : excel_datetime.deserialize (.float (1/2)) =
      .ok ⟨NaiveDate.fromNumDaysFromCE (ratTrunc ((1 : ℚ)/2) + NUM_DAYS_1900_01_01_FROM_CE),
        ⟨(ratRound (((1 : ℚ)/2 - ratTrunc ((1 : ℚ)/2)) * 24 * 60 * 60)).toNat⟩⟩ := rfl
  rw [h2, h1]
  have h3 : ratRound (((1 : ℚ)/2 - ((0 : Int) : ℚ)) * 24 * 60 * 60) = 43200 := by
    unfold ratRound; norm_num
  rw [h3]
  decide

/-- C5 counterexample: the plain date string `01/02/2020` is rejected by
`mm_dd_yyyy_date` — every declared pattern demands a time-of-day. -/
theorem C5_counterexample_bare_date_rejected :
    mm_dd_yyyy_date.deserialize "01/02/2020" = .error "invalid date" := rfl

/-- C5 (amended): the month/day/4-digit-year date and datetime codecs
require a trailing time-of-day — a bare date fails on both — while the date
followed by `H:M:S` or by `H:M` decodes, the declared patterns being tried
in order with the first match accepted. -/
theorem C5_time_of_day_required :
    mm_dd_yyyy_date.deserialize "01/02/2020" = .error "invalid date"
    ∧ mm_dd_yyyy_datetime.deserialize "01/02/2020" = .error "invalid datetime"
    ∧ mm_dd_yyyy_date.deserialize "01/02/2020 03:04:05" = .ok ⟨2020, 1, 2⟩
    ∧ mm_dd_yyyy_date.deserialize "01/02/2020 03:04" = .ok ⟨2020, 1, 2⟩
    ∧ mm_dd_yyyy_datetime.deserialize "01/02/2020 03:04:05"
        = .ok ⟨⟨2020, 1, 2⟩, ⟨3 * 3600 + 4 * 60 + 5⟩⟩
    ∧ mm_dd_yyyy_datetime.deserialize "01/02/2020 03:04"
        = .ok ⟨⟨2020, 1, 2⟩, ⟨3 * 3600 + 4 * 60⟩⟩ := by
  refine ⟨rfl, rfl, by decide, by decide, by decide, by decide⟩

/-- C6 counterexample: `nullable_yes_no_bool` propagates a coercion error on
an unrecognized token instead of yielding absence. -/
theorem C6_counterexample_unrecognized_token_errors :
    nullable_yes_no_bool.deserialize "maybe" = .error "Not yes or no" := rfl

/-- C6 (amended): every nullable boolean codec maps `""` and `"NA"` to
absence, and `nullable_bool` additionally maps every unrecognized token to
absence and never errors; but `nullable_yes_no_bool` and
`nullable_true_false_bool` return a coercion error on any token outside
their recognized sets. -/
theorem C6_nullable_bool_absence_behaviour :
    nullable_yes_no_bool.deserialize "" = .ok none
    ∧ nullable_yes_no_bool.deserialize "NA" = .ok none
    ∧ nullable_true_false_bool.deserialize "" = .ok none
    ∧ nullable_true_false_bool.deserialize "NA" = .ok none
    ∧ nullable_bool.deserialize "" = .ok none
    ∧ nullable_bool.deserialize "NA" = .ok none
    ∧ (∀ s : String, s ≠ "1" → s ≠ "true" → s ≠ "0" → s ≠ "false" →
        nullable_bool.deserialize s = .ok none)
    ∧ (∀ s : String, ∃ v, nullable_bool.deserialize s = .ok v)
    ∧ (∀ s : String, s ≠ "Yes" → s ≠ "No" → s ≠ "" → s ≠ "NA" →
        nullable_yes_no_bool.deserialize s = .error "Not yes or no")
    ∧ (∀ s : String, s ≠ "1" → s ≠ "true" → s ≠ "True" → s ≠ "0" → s ≠ "false" →
        s ≠ "False" → s ≠ "" → s ≠ "NA" →
        nullable_true_false_bool.deserialize s = .error "Not true or false or empty/NA") := by
  refine ⟨rfl, rfl, rfl, rfl, rfl, rfl, ?_, ?_, ?_, ?_⟩
  · intro s h1 h2 h3 h4
    simp [nullable_bool.deserialize, h1, h2, h3, h4]
  · intro s
    unfold nullable_bool.deserialize
    split
    · exact ⟨_, rfl⟩
    split
    · exact ⟨_, rfl⟩
    · exact ⟨_, rfl⟩
  · intro s h1 h2 h3 h4
    simp [nullable_yes_no_bool.deserialize, h1, h2, h3, h4]
  · intro s h1 h2 h3 h4 h5 h6 h7 h8
    simp [nullable_true_false_bool.deserialize, h1, h2, h3, h4, h5, h6, h7, h8]

/-- C6 witness: the amended theorem applied at the concrete token `xyz`. -/
theorem C6_nullable_bool_absence_behaviour_witness :
    nullable_true_false_bool.deserialize "xyz" = .error "Not true or false or empty/NA" :=
  C6_nullable_bool_absence_behaviour.2.2.2.2.2.2.2.2.2 "xyz" (by decide) (by decide)
    (by decide) (by decide) (by decide) (by decide) (by decide) (by decide)

/-- C8: for every boolean codec family defining both directions, decoding
the encoding of any value yields that value back. -/
theorem C8_bool_codec_roundtrip :
    (∀ v : Bool, zero_one_bool.deserialize (zero_one_bool.serialize v) = .ok v)
    ∧ (∀ v : Bool, yes_no_bool.deserialize (yes_no_bool.serialize v) = .ok v)
    ∧ (∀ v : Bool, true_false_bool.deserialize (true_false_bool.serialize v) = .ok v)
    ∧ (∀ v : Bool, non_null_bool.deserialize (non_null_bool.serialize v) = .ok v)
    ∧ (∀ v : Option Bool,
        nullable_yes_no_bool.deserialize (nullable_yes_no_bool.serialize v) = .ok v)
    ∧ (∀ v : Option Bool,
        nullable_true_false_bool.deserialize (nullable_true_false_bool.serialize v) = .ok v)
    ∧ (∀ v : Option Bool, nullable_bool.deserialize (nullable_bool.serialize v) = .ok v)
    ∧ (∀ v : Option Bool,
        nullable_int_bool.deserialize (nullable_int_bool.serialize v) = .ok v) := by
  refine ⟨?_, ?_, ?_, ?_, ?_, ?_, ?_, ?_⟩ <;> decide

/-- C9: the currency codecs strip surrounding whitespace and every `$` and
`,` before parsing as a number: `"$1,234.56"` decodes to `1234.56` and
`"  $0 "` to `0`; the empty string decodes to absence under the optional
variant and to an error under the required one. -/
theorem C9_currency_strip_and_parse :
    currency.deserialize "$1,234.56" = .ok ((123456 : ℚ) / 100)
    ∧ currency.deserialize "  $0 " = .ok 0
    ∧ currency_opt.deserialize "" = .ok none
    ∧ currency.deserialize "" = .error "invalid float literal" := by
  refine ⟨?_, rfl, rfl, rfl⟩
  have h : currency.deserialize "$1,234.56" = .ok ((1234 : ℚ) + (56 : ℚ) / (10 : ℚ) ^ (2 : ℕ)) := rfl
  rw [h]
  norm_num

/-- C10: the time-of-day codecs reject the native-datetime cell variant that
the date and datetime codecs accept exactly as a numeric cell, and the time
codecs accept only numeric cells, text cells and — for the optional
variant — empty cells, rejecting every other variant. -/
theorem C10_excel_time_cell_variants :
    (∀ q : ℚ, excel_time.deserialize (.dateTime q) = .error "invalid datetime")
    ∧ (∀ q : ℚ, excel_time_opt.deserialize (.dateTime q) = .error "invalid datetime")
    ∧ (∀ q : ℚ, excel_date.deserialize (.dateTime q) = excel_date.deserialize (.float q))
    ∧ (∀ q : ℚ, excel_datetime.deserialize (.dateTime q) = excel_datetime.deserialize (.float q))
    ∧ (∀ q : ℚ, ∃ t, excel_time.deserialize (.float q) = .ok t)
    ∧ (∀ q : ℚ, ∃ t, excel_time_opt.deserialize (.float q) = .ok (some t))
    ∧ excel_time_opt.deserialize .empty = .ok none
    ∧ excel_time.deserialize .empty = .error "invalid datetime"
    ∧ (∀ n : Int, excel_time.deserialize (.int n) = .error "invalid datetime"
        ∧ excel_time_opt.deserialize (.int n) = .error "invalid datetime")
    ∧ (∀ b : Bool, excel_time.deserialize (.bool b) = .error "invalid datetime"
        ∧ excel_time_opt.deserialize (.bool b) = .error "invalid datetime")
    ∧ (∀ e : String, excel_time.deserialize (.cellError e) = .error "invalid datetime"
        ∧ excel_time_opt.deserialize (.cellError e) = .error "invalid datetime") :=
  ⟨fun _ => rfl, fun _ => rfl, fun _ => rfl, fun _ => rfl, fun _ => ⟨_, rfl⟩,
    fun _ => ⟨_, rfl⟩, rfl, rfl, fun _ => ⟨rfl, rfl⟩, fun _ => ⟨rfl, rfl⟩,
    fun _ => ⟨rfl, rfl⟩⟩

/-- Splitting a list that does not contain the separator yields that single
piece. -/
theorem splitOnChar_of_not_mem {sep : Char} :
    ∀ cs : List Char, sep ∉ cs → splitOnChar sep cs = [cs]
  | [], _ => rfl
  | c :: rest, h => by
    have hc : ¬ c = sep := fun hh => h (hh ▸ List.mem_cons_self c rest)
    have hr : sep ∉ rest := fun hh => h (List.mem_cons_of_mem _ hh)
    simp [splitOnChar, hc, splitOnChar_of_not_mem rest hr]

/-- A nonempty string has a nonempty character list. -/
theorem string_data_ne_nil (s : String) (h : s ≠ "") : s.data ≠ [] := by
  intro h2
  apply h
  cases s with
  | mk l =>
    cases h2
    rfl

/-- C7 counterexample: the newline codec maps the empty string to the empty
sequence, not to a single-element sequence. -/
theorem C7_counterexample_empty_line_list :
    line_separated.deserialize "" = .ok ([] : List String) := rfl

/-- C7 (amended): none of the three delimited-list codecs can error; the
semicolon and comma codecs return exactly one element on every
separator-free string including the empty one, while the newline codec does
so only for nonempty newline-free strings and returns the empty sequence on
the empty string. -/
theorem C7_delimited_list_splitting :
    (∀ s : String, ∃ l, semi_separated_list.deserialize s = .ok l)
    ∧ (∀ s : String, ∃ l, comma_separated.deserialize s = .ok l)
    ∧ (∀ s : String, ∃ l, line_separated.deserialize s = .ok l)
    ∧ (∀ s : String, ';' ∉ s.data → semi_separated_list.deserialize s = .ok [s])
    ∧ (∀ s : String, ',' ∉ s.data →
        comma_separated.deserialize s = .ok [String.mk (trimChars s.data)])
    ∧ (∀ s : String, s ≠ "" → '\n' ∉ s.data →
        line_separated.deserialize s = .ok [String.mk (stripTrailingCR s.data)])
    ∧ line_separated.deserialize "" = .ok [] := by
  refine ⟨fun s => ⟨_, rfl⟩, fun s => ⟨_, rfl⟩, fun s => ⟨_, rfl⟩, ?_, ?_, ?_, rfl⟩
  · intro s h
    unfold semi_separated_list.deserialize
    rw [splitOnChar_of_not_mem s.data h]
    rfl
  · intro s h
    unfold comma_separated.deserialize
    rw [splitOnChar_of_not_mem s.data h]
    rfl
  · intro s hne hn
    have hd := string_data_ne_nil s hne
    unfold line_separated.deserialize rustLines
    rw [splitOnChar_of_not_mem s.data hn]
    cases hcs : s.data with
    | nil => exact absurd hcs hd
    | cons c cs2 => rfl

/-- C7 witness: the amended theorem applied to the comma codec at `"ab"`. -/
theorem C7_delimited_list_splitting_witness :
    comma_separated.deserialize "ab" = .ok ["ab"] := by
  exact C7_delimited_list_splitting.2.2.2.2.1 "ab" (by decide)


section PipelineProofs

variable {BR SR BH SH Rec E : Type}

/-- Unfolding equation: outcome of a readable row. -/
theorem byteRowOutcome_okItem (sd : BR → Option BH → Except E Rec) (lf : BR → SR)
    (ld : SR → Option SH → Except E Rec) (bh : Option BH) (sh : Option SH) (br : BR) :
    byteRowOutcome sd lf ld bh sh (.ok br) =
      match sd br bh with
      | .ok r => (some r, none)
      | .error e =>
        match ld (lf br) sh with
        | .ok r => (some r, some e)
        | .error _ => (none, some e) := rfl

/-- A row whose strict decode succeeds contributes exactly its strict decode
result and no diagnostic. -/
theorem byteRowOutcome_ok (sd : BR → Option BH → Except E Rec) (lf : BR → SR)
    (ld : SR → Option SH → Except E Rec) (bh : Option BH) (sh : Option SH)
    (br : BR) (r : Rec) (h : sd br bh = .ok r) :
    byteRowOutcome sd lf ld bh sh (.ok br) = (some r, none) := by
  rw [byteRowOutcome_okItem, h]

/-- Unfolding equation: diagnostics of a row-list head. -/
theorem byteDiagsFrom_cons (sd : BR → Option BH → Except E Rec) (lf : BR → SR)
    (ld : SR → Option SH → Except E Rec) (bh : Option BH) (sh : Option SH)
    (i : Nat) (it : Except E BR) (rest : List (Except E BR)) :
    byteDiagsFrom sd lf ld bh sh i (it :: rest) =
      match (byteRowOutcome sd lf ld bh sh it).2 with
      | some e => (i, e) :: byteDiagsFrom sd lf ld bh sh (i + 1) rest
      | none => byteDiagsFrom sd lf ld bh sh (i + 1) rest := rfl

/-- Rows whose strict decode succeeds contribute exactly their strict decode
results, in order. -/
theorem byteRow_filterMap_ok (sd : BR → Option BH → Except E Rec) (lf : BR → SR)
    (ld : SR → Option SH → Except E Rec) (bh : Option BH) (sh : Option SH) :
    ∀ l : List (BR × Rec), (∀ p ∈ l, sd p.1 bh = .ok p.2) →
      (l.map fun p => (Except.ok p.1 : Except E BR)).filterMap
        (fun it => (byteRowOutcome sd lf ld bh sh it).1) = l.map Prod.snd
  | [], _ => rfl
  | p :: rest, h => by
    have h1 := byteRowOutcome_ok sd lf ld bh sh p.1 p.2 (h p (List.mem_cons_self _ _))
    have h2 := byteRow_filterMap_ok sd lf ld bh sh rest
      fun q hq => h q (List.mem_cons_of_mem _ hq)
    rw [List.map_cons, List.filterMap_cons, h1, h2, List.map_cons]

/-- Rows whose strict decode succeeds emit no diagnostics. -/
theorem byteDiagsFrom_ok_list (sd : BR → Option BH → Except E Rec) (lf : BR → SR)
    (ld : SR → Option SH → Except E Rec) (bh : Option BH) (sh : Option SH) :
    ∀ (l : List (BR × Rec)) (i : Nat), (∀ p ∈ l, sd p.1 bh = .ok p.2) →
      byteDiagsFrom sd lf ld bh sh i (l.map fun p => .ok p.1) = []
  | [], _, _ => rfl
  | p :: rest, i, h => by
    have h1 := byteRowOutcome_ok sd lf ld bh sh p.1 p.2 (h p (List.mem_cons_self _ _))
    have h2 := byteDiagsFrom_ok_list sd lf ld bh sh rest (i + 1)
      fun q hq => h q (List.mem_cons_of_mem _ hq)
    rw [List.map_cons, byteDiagsFrom_cons, h1, h2]

/-- The diagnostics of concatenated row lists concatenate, with the index
shifted by the length of the first part. -/
theorem byteDiagsFrom_append (sd : BR → Option BH → Except E Rec) (lf : BR → SR)
    (ld : SR → Option SH → Except E Rec) (bh : Option BH) (sh : Option SH) :
    ∀ (l1 l2 : List (Except E BR)) (i : Nat),
      byteDiagsFrom sd lf ld bh sh i (l1 ++ l2) =
        byteDiagsFrom sd lf ld bh sh i l1 ++ byteDiagsFrom sd lf ld bh sh (i + l1.length) l2
  | [], l2, i => by simp [byteDiagsFrom]
  | it :: rest, l2, i => by
    have ih := byteDiagsFrom_append sd lf ld bh sh rest l2 (i + 1)
    rw [List.cons_append, byteDiagsFrom_cons, byteDiagsFrom_cons, ih]
    have hlen : i + 1 + rest.length = i + (it :: rest).length := by simp; omega
    rw [hlen]
    cases hout : (byteRowOutcome sd lf ld bh sh it).2 with
    | none => rfl
    | some e => rw [List.cons_append]

end PipelineProofs

/-- Concrete strict decoder used to exercise the pipeline theorems: a "byte
record" is a pair carrying its strict and lossy decode results directly. -/
def strictDecC (br : Option Nat × Option Nat) (_ : Option Unit) : Except String Nat :=
  match br.1 with
  | some r => .ok r
  | none => .error "strict failed"

/-- Concrete lossy decoder for the pipeline theorems. -/
def lossyDecC (sr : Option Nat) (_ : Option Unit) : Except String Nat :=
  match sr with
  | some r => .ok r
  | none => .error "lossy failed"

/-- Concrete byte-header to string-header conversion for the pipeline
theorems. -/
def toStringHeaderC (_ : Unit) : Option Unit := some ()

/-- C1: on a byte-buffer batch whose rows all strictly decode except one
that fails both strictly and lossily, `from_bytes` returns exactly the other
rows' records in source order — one fewer than the row count — and emits
exactly one diagnostic, carrying that row's index and strict error; each
row's contribution depends only on that row. -/
theorem C1_from_bytes_single_bad_row {BR SR BH SH Rec E : Type}
    (sd : BR → Option BH → Except E Rec) (tsh : BH → Option SH) (lf : BR → SR)
    (ld : SR → Option SH → Except E Rec) (hdr : Except E BH)
    (pre post : List (BR × Rec)) (bad : BR) (e e2 : E)
    (hpre : ∀ p ∈ pre, sd p.1 hdr.toOption = .ok p.2)
    (hpost : ∀ p ∈ post, sd p.1 hdr.toOption = .ok p.2)
    (hbad : sd bad hdr.toOption = .error e)
    (hlossy : ld (lf bad) (hdr.toOption.bind tsh) = .error e2) :
    from_bytes sd tsh lf ld hdr
        ((pre.map fun p => (Except.ok p.1 : Except E BR))
          ++ .ok bad :: (post.map fun p => (Except.ok p.1 : Except E BR)))
      = .ok (pre.map Prod.snd ++ post.map Prod.snd, [(pre.length, e)])
    ∧ (pre.map Prod.snd ++ post.map Prod.snd).length + 1
      = ((pre.map fun p => (Except.ok p.1 : Except E BR))
          ++ .ok bad :: (post.map fun p => (Except.ok p.1 : Except E BR))).length := by
  have hb : byteRowOutcome sd lf ld hdr.toOption (hdr.toOption.bind tsh)
      (.ok bad) = (none, some e) := by
    rw [byteRowOutcome_okItem, hbad, hlossy]
  constructor
  · have hrec : ((pre.map fun p => (Except.ok p.1 : Except E BR))
        ++ .ok bad :: (post.map fun p => (Except.ok p.1 : Except E BR))).filterMap
          (fun it => (byteRowOutcome sd lf ld hdr.toOption (hdr.toOption.bind tsh) it).1)
        = pre.map Prod.snd ++ post.map Prod.snd := by
      rw [List.filterMap_append, List.filterMap_cons, hb,
        byteRow_filterMap_ok sd lf ld _ _ pre hpre,
        byteRow_filterMap_ok sd lf ld _ _ post hpost]
    have hdiag : byteDiagsFrom sd lf ld hdr.toOption (hdr.toOption.bind tsh) 0
        ((pre.map fun p => (Except.ok p.1 : Except E BR))
          ++ .ok bad :: (post.map fun p => (Except.ok p.1 : Except E BR)))
        = [(pre.length, e)] := by
      rw [byteDiagsFrom_append, byteDiagsFrom_ok_list sd lf ld _ _ pre 0 hpre,
        byteDiagsFrom_cons, hb,
        byteDiagsFrom_ok_list sd lf ld _ _ post _ hpost]
      simp
    simp only [from_bytes, hrec, hdiag]
  · simp only [List.length_append, List.length_map, List.length_cons]
    omega

/-- C1 witness: the theorem at a concrete three-row batch whose middle row
fails both decode stages. -/
theorem C1_from_bytes_single_bad_row_witness :
    from_bytes strictDecC toStringHeaderC Prod.snd lossyDecC (.ok ())
        [.ok (some 1, none), .ok (none, none), .ok (some 3, some 9)]
      = .ok ([1, 3], [(1, "strict failed")]) := by
  exact (C1_from_bytes_single_bad_row strictDecC toStringHeaderC Prod.snd lossyDecC (.ok ())
    [((some 1, none), 1)] [((some 3, some 9), 3)] (none, none) "strict failed" "lossy failed"
    (by decide) (by decide) rfl rfl).1

/-- C2 counterexample: a `from_bytes` call whose header read fails still
returns a batch (`Ok`), not an error — the header error is swallowed by
`.ok()` and decoding proceeds with no headers. -/
theorem C2_counterexample_header_failure_not_fatal :
    from_bytes strictDecC toStringHeaderC Prod.snd lossyDecC
        (.error "unreadable header") [.ok (some 5, none)]
      = .ok ([5], []) := rfl

/-- C2 (amended): source-open failures (`from_csv` path open, `from_xlsx`
workbook open), a missing worksheet and a failed range deserialize in
`from_xlsx` abort the call with an error; but `from_bytes` never returns an
error — a header read failure there is swallowed and decoding proceeds —
and after a successful open the reader-based paths only skip and log rows,
never failing the batch. -/
theorem C2_batch_level_failures :
    (∀ (E Rec : Type) (e : E),
      from_csv (Except.error e : Except E (List (Except E Rec))) = .error e)
    ∧ (∀ (Rec Rg : Type) (d : Rg → Except String (List (Except String Rec))),
        from_xlsx none d = .error "sheet not found")
    ∧ (∀ (Rec Rg : Type) (e : String) (d : Rg → Except String (List (Except String Rec))),
        from_xlsx (some (.error e)) d = .error e)
    ∧ (∀ (Rec Rg : Type) (d : Rg → Except String (List (Except String Rec))) (rg : Rg)
        (e : String), d rg = .error e → from_xlsx (some (.ok rg)) d = .error e)
    ∧ (∀ (BR SR BH SH Rec E : Type) (sd : BR → Option BH → Except E Rec)
        (tsh : BH → Option SH) (lf : BR → SR) (ld : SR → Option SH → Except E Rec)
        (hdr : Except E BH) (items : List (Except E BR)),
        ∃ out, from_bytes sd tsh lf ld hdr items = .ok out)
    ∧ (∀ (E Rec : Type) (items : List (Except E Rec)),
        ∃ out, from_csv (.ok items) = .ok out)
    ∧ (∀ (E Rec : Type) (items : List (Except E Rec)),
        ∃ out, from_csv_reader items = .ok out) := by
  refine ⟨fun E Rec e => rfl, fun Rec Rg d => rfl, fun Rec Rg e d => rfl, ?_,
    fun BR SR BH SH Rec E sd tsh lf ld hdr items => ⟨_, rfl⟩,
    fun E Rec items => ⟨_, rfl⟩, fun E Rec items => ⟨_, rfl⟩⟩
  intro Rec Rg d rg e h
  simp only [from_xlsx, h]

/-- C2 witness: a failed worksheet-range deserialize is fatal, at a concrete
workbook. -/
theorem C2_batch_level_failures_witness :
    from_xlsx (some (.ok ()))
        (fun _ : Unit => (Except.error "no header" : Except String (List (Except String Nat))))
      = .error "no header" :=
  C2_batch_level_failures.2.2.2.1 Nat Unit (fun _ => .error "no header") () "no header" rfl

/-- C3: in `from_bytes`, a row whose strict decode fails is re-attempted
exactly once through the lossy reinterpretation (`lf`) against the
lossy-decoded header, and that row contributes a record to the batch exactly
when the lossy attempt succeeds; the surrounding rows are unaffected. -/
theorem C3_strict_failure_single_lossy_retry {BR SR BH SH Rec E : Type}
    (sd : BR → Option BH → Except E Rec) (tsh : BH → Option SH) (lf : BR → SR)
    (ld : SR → Option SH → Except E Rec) (hdr : Except E BH)
    (items1 items2 : List (Except E BR)) (br : BR) (e : E)
    (hstrict : sd br hdr.toOption = .error e) :
    from_bytes sd tsh lf ld hdr (items1 ++ .ok br :: items2)
      = .ok (items1.filterMap
            (fun it => (byteRowOutcome sd lf ld hdr.toOption (hdr.toOption.bind tsh) it).1)
          ++ ((ld (lf br) (hdr.toOption.bind tsh)).toOption.toList
          ++ items2.filterMap
            (fun it => (byteRowOutcome sd lf ld hdr.toOption (hdr.toOption.bind tsh) it).1)),
        byteDiagsFrom sd lf ld hdr.toOption (hdr.toOption.bind tsh) 0
          (items1 ++ .ok br :: items2)) := by
  have hmid : (byteRowOutcome sd lf ld hdr.toOption (hdr.toOption.bind tsh) (.ok br)).1
      = (ld (lf br) (hdr.toOption.bind tsh)).toOption := by
    rw [byteRowOutcome_okItem, hstrict]
    cases hld : ld (lf br) (hdr.toOption.bind tsh) with
    | ok r => rfl
    | error e2 => rfl
  simp only [from_bytes, List.filterMap_append, List.filterMap_cons, hmid]
  cases (ld (lf br) (hdr.toOption.bind tsh)).toOption with
  | none => rfl
  | some r => rfl

/-- C3 witness: a one-row batch whose strict decode fails and whose lossy
re-attempt succeeds, entering the batch with its diagnostic emitted. -/
theorem C3_strict_failure_single_lossy_retry_witness :
    from_bytes strictDecC toStringHeaderC Prod.snd lossyDecC (.ok ()) [.ok (none, some 7)]
      = .ok ([7], [(0, "strict failed")]) := by
  exact C3_strict_failure_single_lossy_retry strictDecC toStringHeaderC Prod.snd lossyDecC
    (.ok ()) [] [] (none, some 7) "strict failed" rfl
